import Mathlib

/-!
Verification of the scaffold command-construction layer of this repository
(src/scaffolds/base.py and src/scaffolds/claudecode.py): shell escaping,
per-turn command building, docker environment derivation and setup-script
rendering of the `ClaudeCodeScaffold`.  Python strings are embedded as
`List Char`; each definition mirrors one source function.
-/

set_option maxRecDepth 20000

namespace Scaffold

/-- Strings are modelled as lists of characters. -/
abbrev Str : Type := List Char

/-- Python `text.replace(old, new)` for a single-character `old`:
every occurrence of `old` is replaced by `new`, left to right. -/
def replaceChar (old : Char) (new : Str) : Str → Str
  | [] => []
  | c :: cs => (if c = old then new else [c]) ++ replaceChar old new cs

/-- `ClaudeCodeScaffold._escape_for_shell` (src/scaffolds/claudecode.py):
sequentially escapes backslash, double quote, dollar and backtick, in this
order, each by prefixing a backslash. -/
def escape_for_shell (text : Str) : Str :=
  let t1 := replaceChar '\\' ['\\', '\\'] text
  let t2 := replaceChar '\"' ['\\', '\"'] t1
  let t3 := replaceChar '$' ['\\', '$'] t2
  replaceChar '\x60' ['\\', '\x60'] t3

/-- The four characters escaped by `escape_for_shell`. -/
def isShellSpecial (c : Char) : Bool :=
  c = '\\' || c = '\"' || c = '$' || c = '\x60'

/-- Escaping of one character: backslash-prefixed exactly when special. -/
def escChar (c : Char) : Str :=
  if isShellSpecial c then ['\\', c] else [c]

/-- Pointwise escaping of every character of the original text, each
exactly once and in place. -/
def escapePointwise : Str → Str
  | [] => []
  | c :: cs => escChar c ++ escapePointwise cs

/-- Reads `s` as the contents of a double-quoted POSIX shell string and
returns the literal text it denotes.  Inside double quotes a backslash
escapes backslash, double quote, dollar and backtick and is kept literally
before any other character; an unescaped double quote would terminate the
quoted string early, an unescaped dollar or backtick would start a
substitution, and a trailing backslash would escape the closing quote, so
those cases yield `none` (the contents do not denote a plain literal). -/
def dquoteRead : Str → Option Str
  | [] => some []
  | c :: rest =>
    if c = '\\' then
      match rest with
      | [] => none
      | d :: rest2 =>
        if isShellSpecial d then (dquoteRead rest2).map (fun t => d :: t)
        else (dquoteRead rest2).map (fun t => '\\' :: d :: t)
    else if c = '\"' || c = '$' || c = '\x60' then none
    else (dquoteRead rest).map (fun t => c :: t)

/-- `SUPPORTED_MODELS` (src/scaffolds/base.py). -/
def SUPPORTED_MODELS : List Str :=
  [ ("claude-sonnet-4-5-20250929".data),
    ("claude-opus-4-5-20251101".data),
    ("claude-haiku-4-5-20251001".data),
    ("gemini-3-pro".data),
    ("deepseek-chat".data) ]

/-- `DEFAULT_MODEL` (src/scaffolds/base.py). -/
def DEFAULT_MODEL : Str := ("claude-sonnet-4-5-20250929".data)

/-- `ClaudeCodeScaffold.ALLOWED_PERMISSIONS` (src/scaffolds/claudecode.py). -/
def ALLOWED_PERMISSIONS : List Str :=
  [ ("Bash(*)".data),
    ("Write(*)".data),
    ("Edit(*)".data),
    ("Read(*)".data),
    ("WebFetch(*)".data),
    ("TodoRead(*)".data),
    ("TodoWrite(*)".data),
    ("Task(*)".data),
    ("Glob(*)".data),
    ("Grep(*)".data),
    ("LS(*)".data) ]

/-- `model_name = model or DEFAULT_MODEL` in `build_commands`: Python `or`
falls back to the default when the selector is `None` or the empty string
(an empty Python string is falsy). -/
def model_or_default (model : Option Str) : Str :=
  match model with
  | none => DEFAULT_MODEL
  | some m => if m = [] then DEFAULT_MODEL else m

/-- The `i == 0` branch of `ClaudeCodeScaffold.build_commands`: the initial
command carries the model flag and, when the system prompt is truthy
(present and non-empty), the system-prompt flag. -/
def initial_command (model_name : Str) (system_prompt : Option Str) (query : Str) : Str :=
  let escaped_query := escape_for_shell query
  let base_cmd := ("claude --model ".data) ++ model_name ++ (" --dangerously-skip-permissions".data)
  match system_prompt with
  | some sp =>
    if sp = [] then base_cmd ++ (" -p \"".data) ++ escaped_query ++ ("\"".data)
    else
      base_cmd ++ (" -p \"".data) ++ escaped_query ++ ("\" --system-prompt \"".data)
        ++ escape_for_shell sp ++ ("\"".data)
  | none => base_cmd ++ (" -p \"".data) ++ escaped_query ++ ("\"".data)

/-- Everything of the initial command after the model selection: the
prompt flag with the escaped query and, when the system prompt is truthy,
the system-prompt flag with the escaped prompt. -/
def initial_tail (system_prompt : Option Str) (query : Str) : Str :=
  match system_prompt with
  | some sp =>
    if sp = [] then (" -p \"".data) ++ escape_for_shell query ++ ("\"".data)
    else
      (" -p \"".data) ++ escape_for_shell query ++ ("\" --system-prompt \"".data)
        ++ escape_for_shell sp ++ ("\"".data)
  | none => (" -p \"".data) ++ escape_for_shell query ++ ("\"".data)

/-- The `i > 0` branch of `ClaudeCodeScaffold.build_commands`: a
continuation command (`-c`) with neither model nor system-prompt flag. -/
def continuation_command (query : Str) : Str :=
  ("claude --dangerously-skip-permissions -c -p \"".data) ++ escape_for_shell query ++ ("\"".data)

/-- `ClaudeCodeScaffold.build_commands`: one command per query, the first
built by the initial branch and all later ones by the continuation
branch. -/
def build_commands (queries : List Str) (system_prompt : Option Str) (model : Option Str) :
    List Str :=
  let model_name := model_or_default model
  match queries with
  | [] => []
  | q :: rest => initial_command model_name system_prompt q :: rest.map continuation_command

/-- `ClaudeCodeScaffold.get_docker_env`: the returned dict, as the ordered
association list of its insertion order. -/
def get_docker_env (proxy_url : Str) (model : Option Str) : List (Str × Str) :=
  [ (("ANTHROPIC_BASE_URL".data), proxy_url),
    (("ANTHROPIC_API_KEY".data), ("fake-key".data)) ]

/-- Lowercase hexadecimal digit, as produced by Python's `'%x'`
formatting used by `json.dumps` for control characters. -/
def toHexDigit (n : Nat) : Char :=
  if n < 10 then Char.ofNat (48 + n) else Char.ofNat (87 + n)

/-- Escaping of one character inside a JSON string literal as performed by
Python `json.dumps(..., ensure_ascii=False)`: double quote, backslash and
the named control characters get two-character escapes, any other control
character below U+0020 becomes `\u00XX`, and everything else is kept. -/
def jsonEscChar (c : Char) : Str :=
  if c = '\"' then ['\\', '\"']
  else if c = '\\' then ['\\', '\\']
  else if c = '\n' then ['\\', 'n']
  else if c = '\r' then ['\\', 'r']
  else if c = '\t' then ['\\', 't']
  else if c = '\x08' then ['\\', 'b']
  else if c = '\x0c' then ['\\', 'f']
  else if c.toNat < 32 then
    ['\\', 'u', '0', '0', toHexDigit (c.toNat / 16), toHexDigit (c.toNat % 16)]
  else [c]

/-- JSON escaping of a whole string body. -/
def jsonEscape : Str → Str
  | [] => []
  | c :: cs => jsonEscChar c ++ jsonEscape cs

/-- A JSON string literal: the escaped body between double quotes. -/
def jsonStringLit (s : Str) : Str := '\"' :: jsonEscape s ++ ['\"']

/-- `", "`-separated join, the item separator used by `json.dumps`. -/
def jsonJoin : List Str → Str
  | [] => []
  | [x] => x
  | x :: y :: ys => x ++ (", ".data) ++ jsonJoin (y :: ys)

/-- A JSON array literal of already-rendered items. -/
def jsonArrayLit (xs : List Str) : Str := '[' :: jsonJoin xs ++ [']']

/-- `json.dumps(settings, ensure_ascii=False)` evaluated at the fixed
settings skeleton built in `ClaudeCodeScaffold.get_setup_script`:
`settings = \x7b"env": \x7b"ANTHROPIC_BASE_URL": proxy_url\x7d,
"permissions": \x7b"allow": ALLOWED_PERMISSIONS\x7d\x7d`. -/
def settings_json (proxy_url : Str) : Str :=
  ("\x7b\"env\": \x7b\"ANTHROPIC_BASE_URL\": ".data) ++ jsonStringLit proxy_url
    ++ ("\x7d, \"permissions\": \x7b\"allow\": ".data)
    ++ jsonArrayLit (ALLOWED_PERMISSIONS.map jsonStringLit)
    ++ ("\x7d\x7d".data)

/-- `ClaudeCodeScaffold.get_setup_script`: create the configuration
directory, then write the serialized settings into the configuration file
through a single-quoted `echo`. -/
def get_setup_script (proxy_url : Str) (model : Option Str) : Str :=
  ("mkdir -p ~/.claude && echo \x27".data) ++ settings_json proxy_url
    ++ ("\x27 > ~/.claude/settings.json".data)

/-- Value of a hexadecimal digit character, if any. -/
def fromHexDigit (c : Char) : Option Nat :=
  if '0' ≤ c ∧ c ≤ '9' then some (c.toNat - 48)
  else if 'a' ≤ c ∧ c ≤ 'f' then some (c.toNat - 87)
  else if 'A' ≤ c ∧ c ≤ 'F' then some (c.toNat - 55)
  else none

/-- The character denoted by a two-character JSON escape `\e`, if any. -/
def simpleEscape (e : Char) : Option Char :=
  if e = '\"' then some '\"'
  else if e = '\\' then some '\\'
  else if e = '/' then some '/'
  else if e = 'b' then some '\x08'
  else if e = 'f' then some '\x0c'
  else if e = 'n' then some '\n'
  else if e = 'r' then some '\r'
  else if e = 't' then some '\t'
  else none

/-- Parses the body of a JSON string literal up to and including the
closing double quote; returns the denoted string and the remaining
input. -/
def parseJsonStringBody : Str → Option (Str × Str)
  | [] => none
  | c :: rest =>
    if c = '\"' then some ([], rest)
    else if c = '\\' then
      match rest with
      | 'u' :: h1 :: h2 :: h3 :: h4 :: rest2 =>
        match fromHexDigit h1, fromHexDigit h2, fromHexDigit h3, fromHexDigit h4 with
        | some d1, some d2, some d3, some d4 =>
          (parseJsonStringBody rest2).map
            (fun p => (Char.ofNat (((d1 * 16 + d2) * 16 + d3) * 16 + d4) :: p.1, p.2))
        | _, _, _, _ => none
      | e :: rest2 =>
        match simpleEscape e with
        | some d => (parseJsonStringBody rest2).map (fun p => (d :: p.1, p.2))
        | none => none
      | [] => none
    else (parseJsonStringBody rest).map (fun p => (c :: p.1, p.2))

/-- Parses a JSON string literal, returning the denoted string and the
remaining input. -/
def parseJsonString : Str → Option (Str × Str)
  | '\"' :: rest => parseJsonStringBody rest
  | _ => none

/-- Consumes an expected literal from the front of the input. -/
def dropLit : Str → Str → Option Str
  | [], s => some s
  | _ :: _, [] => none
  | p :: ps, c :: cs => if c = p then dropLit ps cs else none

/-- Parses the `", "`-separated items of a non-empty JSON string array up
to and including the closing bracket (fuel-bounded recursion). -/
def parseStrItems : Nat → Str → Option (List Str × Str)
  | 0, _ => none
  | fuel + 1, s =>
    match parseJsonString s with
    | none => none
    | some (x, r) =>
      match r with
      | ']' :: r2 => some ([x], r2)
      | ',' :: ' ' :: r2 => (parseStrItems fuel r2).map (fun p => (x :: p.1, p.2))
      | _ => none

/-- Parses a JSON array of string literals. -/
def parseStrArray (s : Str) : Option (List Str × Str) :=
  match s with
  | '[' :: ']' :: r => some ([], r)
  | '[' :: r => parseStrItems (r.length + 1) r
  | _ => none

/-- Parses everything of the settings payload that follows the endpoint
string: the permissions key, the allow-list array and the two closing
braces; returns the decoded allow-list. -/
def parseSettingsTail (r : Str) : Option (List Str) :=
  match dropLit ("\x7d, \"permissions\": \x7b\"allow\": ".data) r with
  | none => none
  | some r1 =>
    match parseStrArray r1 with
    | none => none
    | some (perms, r2) => if r2 = ("\x7d\x7d".data) then some perms else none

/-- Decodes the settings payload: the env object holding the
`ANTHROPIC_BASE_URL` endpoint string and the permissions object holding
the allow-list; returns both. -/
def parseSettings (s : Str) : Option (Str × List Str) :=
  match dropLit ("\x7b\"env\": \x7b\"ANTHROPIC_BASE_URL\": ".data) s with
  | none => none
  | some r1 =>
    match parseJsonString r1 with
    | none => none
    | some (proxy, r2) =>
      match parseSettingsTail r2 with
      | none => none
      | some perms => some (proxy, perms)

/-- Splits the input at its first single quote. -/
def breakAtQuote : Str → Option (Str × Str)
  | [] => none
  | c :: cs =>
    if c = '\x27' then some ([], cs)
    else (breakAtQuote cs).map (fun p => (c :: p.1, p.2))

/-- The contents of the first single-quoted segment of a shell command:
what a POSIX shell passes literally between the first two single
quotes. -/
def extractSingleQuoted (s : Str) : Option Str :=
  match breakAtQuote s with
  | none => none
  | some (_, r) =>
    match breakAtQuote r with
    | none => none
    | some (content, _) => some content

/-! ## Escaping lemmas -/

theorem replaceChar_append (old : Char) (new : Str) (xs ys : Str) :
    replaceChar old new (xs ++ ys) = replaceChar old new xs ++ replaceChar old new ys := by
  induction xs with
  | nil => rfl
  | cons c cs ih => simp [replaceChar, ih, List.append_assoc]

theorem escape_for_shell_append (xs ys : Str) :
    escape_for_shell (xs ++ ys) = escape_for_shell xs ++ escape_for_shell ys := by
  simp [escape_for_shell, replaceChar_append]

theorem escape_for_shell_single (c : Char) : escape_for_shell [c] = escChar c := by
  by_cases h1 : c = '\\'
  · subst h1; rfl
  · by_cases h2 : c = '\"'
    · subst h2; rfl
    · by_cases h3 : c = '$'
      · subst h3; rfl
      · by_cases h4 : c = '\x60'
        · subst h4; rfl
        · simp [escape_for_shell, replaceChar, escChar, isShellSpecial, h1, h2, h3, h4]

theorem escape_for_shell_eq_pointwise (t : Str) : escape_for_shell t = escapePointwise t := by
  induction t with
  | nil => rfl
  | cons c cs ih =>
    calc escape_for_shell (c :: cs) = escape_for_shell ([c] ++ cs) := rfl
    _ = escChar c ++ escapePointwise cs := by
        rw [escape_for_shell_append, escape_for_shell_single, ih]
    _ = escapePointwise (c :: cs) := rfl

theorem dquoteRead_escapePointwise (t : Str) : dquoteRead (escapePointwise t) = some t := by
  induction t with
  | nil => rfl
  | cons c cs ih =>
    by_cases hs : isShellSpecial c = true
    · have h2 : escapePointwise (c :: cs) = '\\' :: c :: escapePointwise cs := by
        simp [escapePointwise, escChar, hs]
      rw [h2]
      simp [dquoteRead, hs, ih]
    · have hs' : isShellSpecial c = false := by simpa using hs
      have h2 : escapePointwise (c :: cs) = c :: escapePointwise cs := by
        simp [escapePointwise, escChar, hs']
      have hc : ((¬c = '\\' ∧ ¬c = '\"') ∧ ¬c = '$') ∧ ¬c = '\x60' := by
        simpa [isShellSpecial] using hs'
      obtain ⟨⟨⟨ha, hb⟩, hd⟩, he⟩ := hc
      rw [h2, dquoteRead.eq_def]
      simp [ha, hb, hd, he, ih]

/-- C1: `_escape_for_shell` backslash-prefixes each occurrence of
backslash, double quote, dollar and backtick of the original text exactly
once — it equals the pointwise escaping of the raw characters, so no
inserted escape is ever escaped again — and the escaped output, read back
as the contents of a double-quoted POSIX shell string, denotes exactly the
original literal text. -/
theorem c1_escape_shell_roundtrip (t : Str) :
    escape_for_shell t = escapePointwise t ∧
    dquoteRead (escape_for_shell t) = some t := by
  refine ⟨escape_for_shell_eq_pointwise t, ?_⟩
  rw [escape_for_shell_eq_pointwise]
  exact dquoteRead_escapePointwise t

/-! ## Command-sequence shape -/

theorem build_commands_length (queries : List Str) (sp model : Option Str) :
    (build_commands queries sp model).length = queries.length := by
  cases queries <;> simp [build_commands]

theorem map_continuation_getD (rest : List Str) (j : Nat) (h : j < rest.length) :
    (rest.map continuation_command).getD j [] = continuation_command (rest.getD j []) := by
  induction rest generalizing j with
  | nil => simp at h
  | cons x xs ih =>
    cases j with
    | zero => simp
    | succ n =>
      simp only [List.map_cons, List.getD_cons_succ]
      exact ih n (by simpa using h)

theorem build_commands_getD (queries : List Str) (sp model : Option Str) (i : Nat)
    (h : i < queries.length) :
    (build_commands queries sp model).getD i []
      = if i = 0 then initial_command (model_or_default model) sp (queries.getD i [])
        else continuation_command (queries.getD i []) := by
  cases queries with
  | nil => simp at h
  | cons q rest =>
    cases i with
    | zero => simp [build_commands]
    | succ n =>
      simp only [build_commands, List.getD_cons_succ, Nat.succ_ne_zero, if_false]
      exact map_continuation_getD rest n (by simpa using h)

/-- C4: `build_commands` returns exactly one command per query,
index-aligned: command 0 is the initial command built from query 0,
command `i > 0` the continuation command built from query `i`, and the
empty query list yields the empty command list. -/
theorem c4_length_and_alignment (queries : List Str) (sp model : Option Str) :
    (build_commands queries sp model).length = queries.length
  ∧ build_commands [] sp model = []
  ∧ (∀ i, i < queries.length →
      (build_commands queries sp model).getD i []
        = if i = 0 then initial_command (model_or_default model) sp (queries.getD i [])
          else continuation_command (queries.getD i [])) :=
  ⟨build_commands_length queries sp model, rfl,
   fun i h => build_commands_getD queries sp model i h⟩

theorem c4_length_and_alignment_witness :
    ((1 : Nat) < 2)
  ∧ (build_commands [("a".data), ("b".data)] none none).length = 2
  ∧ (build_commands [("a".data), ("b".data)] none none).getD 1 []
      = continuation_command (("b".data)) := by
  refine ⟨by decide, ?_, ?_⟩
  · exact (c4_length_and_alignment [("a".data), ("b".data)] none none).1
  · simpa using (c4_length_and_alignment [("a".data), ("b".data)] none none).2.2 1 (by decide)

/-! ## Docker environment -/

/-- C5: `get_docker_env` of the Claude Code scaffold always returns the
mapping with exactly the two fixed keys `ANTHROPIC_BASE_URL` (bound to the
given proxy endpoint) and `ANTHROPIC_API_KEY` (bound to the fixed
placeholder `fake-key`); it is non-empty and, being a pure function of its
arguments, identical across repeated calls with the same inputs. -/
theorem c5_docker_env (proxy_url : Str) (model : Option Str) :
    get_docker_env proxy_url model
      = [ (("ANTHROPIC_BASE_URL".data), proxy_url),
          (("ANTHROPIC_API_KEY".data), ("fake-key".data)) ]
  ∧ get_docker_env proxy_url model ≠ []
  ∧ (get_docker_env proxy_url model).map Prod.fst
      = [("ANTHROPIC_BASE_URL".data), ("ANTHROPIC_API_KEY".data)]
  ∧ List.lookup ("ANTHROPIC_BASE_URL".data) (get_docker_env proxy_url model) = some proxy_url
  ∧ List.lookup ("ANTHROPIC_API_KEY".data) (get_docker_env proxy_url model)
      = some ("fake-key".data)
  ∧ get_docker_env proxy_url model = get_docker_env proxy_url model := by
  refine ⟨rfl, by simp [get_docker_env], rfl, rfl, rfl, rfl⟩

/-- C9: the model selector has no effect on `get_docker_env` and
`get_setup_script`: any two selector values (including absence) produce
identical outputs for the same proxy endpoint. -/
theorem c9_model_noninterference (proxy_url : Str) (m1 m2 : Option Str) :
    get_docker_env proxy_url m1 = get_docker_env proxy_url m2
  ∧ get_setup_script proxy_url m1 = get_setup_script proxy_url m2 :=
  ⟨rfl, rfl⟩

/-- C10: the default model constant is a member of the fixed
supported-model list, so the default substitution of `build_commands`
(absent selector) always yields a supported identifier. -/
theorem c10_default_model_supported :
    DEFAULT_MODEL ∈ SUPPORTED_MODELS
  ∧ model_or_default none = DEFAULT_MODEL
  ∧ model_or_default none ∈ SUPPORTED_MODELS := by decide

/-- C8: the concrete two-turn scenario: with queries `list files` and
`now delete the largest one`, system prompt `be careful` and no model,
command 0 carries the default model, the escaped system prompt and the
escaped first query; command 1 is the continuation command for the second
query, containing neither a `--model` nor a `--system-prompt` flag. -/
theorem c8_concrete_scenario :
    build_commands [("list files".data), ("now delete the largest one".data)]
        (some ("be careful".data)) none
      = [ ("claude --model claude-sonnet-4-5-20250929 --dangerously-skip-permissions -p \"list files\" --system-prompt \"be careful\"".data),
          ("claude --dangerously-skip-permissions -c -p \"now delete the largest one\"".data) ]
  ∧ DEFAULT_MODEL <:+: (build_commands [("list files".data), ("now delete the largest one".data)]
        (some ("be careful".data)) none).getD 0 []
  ∧ ("be careful".data) <:+: (build_commands [("list files".data), ("now delete the largest one".data)]
        (some ("be careful".data)) none).getD 0 []
  ∧ ("list files".data) <:+: (build_commands [("list files".data), ("now delete the largest one".data)]
        (some ("be careful".data)) none).getD 0 []
  ∧ (build_commands [("list files".data), ("now delete the largest one".data)]
        (some ("be careful".data)) none).getD 1 []
      = continuation_command (("now delete the largest one".data))
  ∧ ("now delete the largest one".data) <:+: (build_commands
        [("list files".data), ("now delete the largest one".data)]
        (some ("be careful".data)) none).getD 1 []
  ∧ ¬ ("--model".data) <:+: (build_commands [("list files".data), ("now delete the largest one".data)]
        (some ("be careful".data)) none).getD 1 []
  ∧ ¬ ("--system-prompt".data) <:+: (build_commands
        [("list files".data), ("now delete the largest one".data)]
        (some ("be careful".data)) none).getD 1 [] := by decide

/-! ## Infix decomposition over concatenations -/

theorem infix_cons_split {α : Type} {p l : List α} {y : α} (h : p <:+: y :: l) :
    p <+: y :: l ∨ p <:+: l := by
  obtain ⟨s, t, hst⟩ := h
  cases s with
  | nil => exact Or.inl ⟨t, by simpa using hst⟩
  | cons a s' =>
    right
    have h2 : a :: (s' ++ p ++ t) = y :: l := by simpa using hst
    injection h2 with _ h3
    exact ⟨s', t, h3⟩

theorem prefix_append_split {α : Type} {p a b : List α} (h : p <+: a ++ b) :
    p <+: a ∨ ∃ t, p = a ++ t ∧ t <+: b := by
  by_cases hl : p.length ≤ a.length
  · exact Or.inl (List.prefix_of_prefix_length_le h (a.prefix_append b) hl)
  · right
    push_neg at hl
    obtain ⟨t0, ht0⟩ := h
    refine ⟨b.take (p.length - a.length), ?_, b.drop (p.length - a.length), List.take_append_drop _ b⟩
    have h1 : p = (a ++ b).take p.length := by
      rw [← ht0]
      exact (List.take_left p t0).symm
    conv_lhs => rw [h1]
    rw [List.take_append_eq_append_take, List.take_of_length_le (Nat.le_of_lt hl)]

theorem infix_append_split {α : Type} {p a b : List α} (h : p <:+: a ++ b) :
    p <:+: a ∨ p <:+: b
      ∨ ∃ s t, p = s ++ t ∧ s ≠ [] ∧ t ≠ [] ∧ s <:+ a ∧ t <+: b := by
  induction a with
  | nil => exact Or.inr (Or.inl (by simpa using h))
  | cons y a' ih =>
    have h' : p <:+: y :: (a' ++ b) := by simpa using h
    rcases infix_cons_split h' with hpre | hinf
    · have hpre' : p <+: (y :: a') ++ b := by simpa using hpre
      rcases prefix_append_split hpre' with hpa | ⟨t, hpt, htb⟩
      · exact Or.inl hpa.isInfix
      · cases t with
        | nil =>
          left
          simp only [List.append_nil] at hpt
          rw [hpt]
        | cons c t' =>
          right; right
          exact ⟨y :: a', c :: t', hpt, by simp, by simp, List.suffix_rfl, htb⟩
    · rcases ih hinf with hpa | hpb | ⟨s, t, h1, h2, h3, h4, h5⟩
      · exact Or.inl (List.infix_cons hpa)
      · exact Or.inr (Or.inl hpb)
      · right; right
        obtain ⟨u, hu⟩ := h4
        exact ⟨s, t, h1, h2, h3, ⟨y :: u, by simp [hu]⟩, h5⟩

/-- An occurrence of a flag that contains no double quote, inside a text
of the shape `L ++ ["] ++ e ++ ["]`, must lie inside `e` whenever the flag
does not occur in `L ++ ["]` itself: it can cross neither quote
boundary. -/
theorem infix_quoted_segment {flag e L : Str}
    (hq : '\"' ∉ flag) (hlen : 1 < flag.length)
    (hL : ¬ flag <:+: L ++ ['\"'])
    (h : flag <:+: (L ++ ['\"']) ++ (e ++ ['\"'])) :
    flag <:+: e := by
  rcases infix_append_split h with h1 | h2 | ⟨s, t, hp, hs, ht, hsuf, hpre⟩
  · exact absurd h1 hL
  · rcases infix_append_split h2 with h3 | h4 | ⟨s, t, hp, hs, ht, hsuf, hpre⟩
    · exact h3
    · exfalso
      have hle := h4.length_le
      simp at hle
      omega
    · exfalso
      cases t with
      | nil => exact ht rfl
      | cons c t' =>
        obtain ⟨u, hu⟩ := hpre
        have h5 : c :: (t' ++ u) = ['\"'] := by simpa using hu
        injection h5 with h6 _
        apply hq
        rw [hp, h6]
        exact List.mem_append_right _ (List.mem_cons_self _ _)
  · exfalso
    obtain ⟨u, hu⟩ := hsuf
    have h1 : (u ++ s).getLast? = some '\"' := by
      rw [hu]
      exact List.getLast?_concat L
    rw [List.getLast?_append] at h1
    cases hsl : s.getLast? with
    | none =>
      rw [List.getLast?_eq_none_iff] at hsl
      exact hs hsl
    | some x =>
      rw [hsl] at h1
      simp only [Option.or_some, Option.some.injEq] at h1
      apply hq
      rw [hp]
      exact List.mem_append_left _ (h1 ▸ List.mem_of_getLast?_eq_some hsl)

theorem continuation_sp_flag_transfer (q : Str)
    (h : ("--system-prompt".data) <:+: continuation_command q) :
    ("--system-prompt".data) <:+: escape_for_shell q := by
  have e1 : (("claude --dangerously-skip-permissions -c -p ".data) ++ ['\"'] : Str)
      = ("claude --dangerously-skip-permissions -c -p \"".data) := by rfl
  have hshape : continuation_command q
      = (("claude --dangerously-skip-permissions -c -p ".data) ++ ['\"'])
        ++ (escape_for_shell q ++ ['\"']) := by
    rw [e1]
    simp [continuation_command, List.append_assoc]
  rw [hshape] at h
  exact infix_quoted_segment (by decide) (by decide) (by rw [e1]; decide) h

theorem continuation_model_flag_transfer (q : Str)
    (h : ("--model".data) <:+: continuation_command q) :
    ("--model".data) <:+: escape_for_shell q := by
  have e1 : (("claude --dangerously-skip-permissions -c -p ".data) ++ ['\"'] : Str)
      = ("claude --dangerously-skip-permissions -c -p \"".data) := by rfl
  have hshape : continuation_command q
      = (("claude --dangerously-skip-permissions -c -p ".data) ++ ['\"'])
        ++ (escape_for_shell q ++ ['\"']) := by
    rw [e1]
    simp [continuation_command, List.append_assoc]
  rw [hshape] at h
  exact infix_quoted_segment (by decide) (by decide) (by rw [e1]; decide) h

/-! ## Initial and continuation command placement -/

theorem build_commands_getD_zero (queries : List Str) (sp model : Option Str)
    (q0 : Str) (rest : List Str) (hq : queries = q0 :: rest) :
    (build_commands queries sp model).getD 0 []
      = initial_command (model_or_default model) sp q0 := by
  subst hq
  simp [build_commands]

theorem build_commands_getD_pos (queries : List Str) (sp model : Option Str) (i : Nat)
    (hi : 0 < i) (hlen : i < queries.length) :
    (build_commands queries sp model).getD i [] = continuation_command (queries.getD i []) := by
  rw [build_commands_getD queries sp model i hlen, if_neg (Nat.pos_iff_ne_zero.mp hi)]

theorem initial_command_decomp (mn : Str) (sp : Option Str) (q : Str) :
    initial_command mn sp q
      = (("claude --model ".data) ++ mn)
        ++ ((" --dangerously-skip-permissions".data) ++ initial_tail sp q) := by
  cases sp with
  | none => simp [initial_command, initial_tail, List.append_assoc]
  | some s =>
    by_cases h : s = [] <;> simp [initial_command, initial_tail, h, List.append_assoc]

/-- C2 as stated is false: a continuation command does contain the
system-prompt text when the query at that index itself contains it.  With
queries `["list", "secret agenda"]` and system prompt `secret agenda`,
the escaped system prompt occurs in the command at index 1. -/
theorem c2_counterexample :
    escape_for_shell ("secret agenda".data)
      <:+: (build_commands [("list".data), ("secret agenda".data)]
              (some ("secret agenda".data)) none).getD 1 [] := by decide

/-- C2 (amended): the escaped system prompt, with its flag, appears in the
command at index 0 exactly when a non-empty system prompt was supplied
(a `None` or empty prompt is falsy in Python and leaves command 0 without
the flag); every command at index `i > 0` is the continuation command of
query `i`, which adds no system-prompt flag of its own — the substring
`--system-prompt` can occur in it only if the escaped query itself
contains it (and likewise the prompt text can occur only through the
query text). -/
theorem c2_system_prompt_placement (queries : List Str) (sp model : Option Str)
    (q0 : Str) (rest : List Str) (hq : queries = q0 :: rest) :
    (∀ s, sp = some s → s ≠ [] →
        (build_commands queries sp model).getD 0 []
          = (("claude --model ".data) ++ model_or_default model
              ++ (" --dangerously-skip-permissions".data) ++ (" -p \"".data)
              ++ escape_for_shell q0 ++ ['\"'])
            ++ ((" --system-prompt \"".data) ++ escape_for_shell s ++ ("\"".data))
      ∧ ((" --system-prompt \"".data) ++ escape_for_shell s ++ ("\"".data))
          <:+: (build_commands queries sp model).getD 0 [])
  ∧ ((sp = none ∨ sp = some []) →
      (build_commands queries sp model).getD 0 []
        = ("claude --model ".data) ++ model_or_default model
            ++ (" --dangerously-skip-permissions".data) ++ (" -p \"".data)
            ++ escape_for_shell q0 ++ ("\"".data))
  ∧ (∀ i, 0 < i → i < queries.length →
      (build_commands queries sp model).getD i [] = continuation_command (queries.getD i []))
  ∧ (∀ q, ("--system-prompt".data) <:+: continuation_command q →
      ("--system-prompt".data) <:+: escape_for_shell q) := by
  have h0 := build_commands_getD_zero queries sp model q0 rest hq
  have e3 : ("\" --system-prompt \"".data : Str) = ['\"'] ++ (" --system-prompt \"".data) := rfl
  refine ⟨?_, ?_, build_commands_getD_pos queries sp model, continuation_sp_flag_transfer⟩
  · intro s hsp hne
    subst hsp
    rw [h0]
    constructor
    · simp [initial_command, hne, e3, List.append_assoc]
    · refine ⟨("claude --model ".data) ++ model_or_default model
        ++ (" --dangerously-skip-permissions".data) ++ (" -p \"".data)
        ++ escape_for_shell q0 ++ ['\"'], [], ?_⟩
      simp [initial_command, hne, e3, List.append_assoc]
  · intro h
    rw [h0]
    rcases h with h | h <;> subst h <;> simp [initial_command, List.append_assoc]

theorem c2_system_prompt_placement_witness :
    ((" --system-prompt \"".data) ++ escape_for_shell ("guide".data) ++ ("\"".data))
      <:+: (build_commands [("hello".data), ("again".data)]
              (some ("guide".data)) none).getD 0 []
  ∧ (build_commands [("hello".data), ("again".data)] (some ("guide".data)) none).getD 1 []
      = continuation_command (("again".data)) := by
  have h := c2_system_prompt_placement [("hello".data), ("again".data)]
    (some ("guide".data)) none ("hello".data) [("again".data)] rfl
  exact ⟨(h.1 ("guide".data) rfl (by decide)).2, h.2.2.1 1 (by decide) (by decide)⟩

/-- C3 as stated is false: a continuation command does contain the text
`--model` when the query at that index contains it.  With second query
`please run --model foo`, the command at index 1 contains `--model`. -/
theorem c3_counterexample :
    ("--model".data)
      <:+: (build_commands [("hi".data), ("please run --model foo".data)]
              none none).getD 1 [] := by decide

/-- C3 (amended): the command at index 0 always begins with the explicit
model selection `claude --model <name>`, where the name is the given
selector or, when the selector is absent, the fixed default constant;
every command at index `i > 0` is the continuation command of query `i`,
which adds no model flag of its own — the substring `--model` can occur
in it only if the escaped query itself contains it. -/
theorem c3_model_flag_placement (queries : List Str) (sp model : Option Str)
    (q0 : Str) (rest : List Str) (hq : queries = q0 :: rest) :
    (build_commands queries sp model).getD 0 []
      = (("claude --model ".data) ++ model_or_default model)
        ++ ((" --dangerously-skip-permissions".data) ++ initial_tail sp q0)
  ∧ (("claude --model ".data) ++ model_or_default model)
      <+: (build_commands queries sp model).getD 0 []
  ∧ (model = none → model_or_default model = DEFAULT_MODEL)
  ∧ (∀ i, 0 < i → i < queries.length →
      (build_commands queries sp model).getD i [] = continuation_command (queries.getD i []))
  ∧ (∀ q, ("--model".data) <:+: continuation_command q →
      ("--model".data) <:+: escape_for_shell q) := by
  have h0 := build_commands_getD_zero queries sp model q0 rest hq
  have h1 : (build_commands queries sp model).getD 0 []
      = (("claude --model ".data) ++ model_or_default model)
        ++ ((" --dangerously-skip-permissions".data) ++ initial_tail sp q0) := by
    rw [h0, initial_command_decomp]
  refine ⟨h1, ⟨(" --dangerously-skip-permissions".data) ++ initial_tail sp q0, h1.symm⟩,
    fun h => by subst h; rfl, build_commands_getD_pos queries sp model,
    continuation_model_flag_transfer⟩

theorem c3_model_flag_placement_witness :
    (("claude --model ".data) ++ model_or_default none)
      <+: (build_commands [("one".data), ("two".data)] none none).getD 0 []
  ∧ (build_commands [("one".data), ("two".data)] none none).getD 1 []
      = continuation_command (("two".data))
  ∧ model_or_default none = DEFAULT_MODEL := by
  have h := c3_model_flag_placement [("one".data), ("two".data)] none none
    ("one".data) [("two".data)] rfl
  exact ⟨h.2.1, h.2.2.2.1 1 (by decide) (by decide), h.2.2.1 rfl⟩

/-- C7 as stated is false: the empty string is a model selector that is
supplied (not absent) yet is not passed through verbatim — Python's
`model or DEFAULT_MODEL` treats it as falsy and substitutes the default
model. -/
theorem c7_counterexample :
    (build_commands [("q".data)] none (some [])).getD 0 []
      = ("claude --model claude-sonnet-4-5-20250929 --dangerously-skip-permissions -p \"q\"".data)
  ∧ (build_commands [("q".data)] none (some [])).getD 0 []
      ≠ ("claude --model  --dangerously-skip-permissions -p \"q\"".data) := by decide

/-- C7 (amended): `get_docker_env`, `get_setup_script` and
`build_commands` are total and raise no domain error; a model selector
outside the supported list is not validated or rejected but — provided it
is non-empty — is rendered verbatim into the initial command; the
default-model substitution occurs exactly when the selector is absent or
is the (falsy) empty string. -/
theorem c7_no_validation_passthrough (proxy_url m : Str) (sp : Option Str) (q0 : Str)
    (rest : List Str) (hm : m ∉ SUPPORTED_MODELS) (hne : m ≠ []) :
    model_or_default (some m) = m
  ∧ (build_commands (q0 :: rest) sp (some m)).getD 0 []
      = (("claude --model ".data) ++ m)
        ++ ((" --dangerously-skip-permissions".data) ++ initial_tail sp q0)
  ∧ model_or_default none = DEFAULT_MODEL
  ∧ model_or_default (some []) = DEFAULT_MODEL
  ∧ (get_docker_env proxy_url (some m)).length = 2
  ∧ get_setup_script proxy_url (some m) ≠ [] := by
  have hmn : model_or_default (some m) = m := by simp [model_or_default, hne]
  refine ⟨hmn, ?_, rfl, rfl, rfl, ?_⟩
  · rw [build_commands_getD_zero (q0 :: rest) sp (some m) q0 rest rfl, hmn,
      initial_command_decomp]
  · exact List.append_ne_nil_of_left_ne_nil
      (List.append_ne_nil_of_left_ne_nil (by decide) _) _

theorem c7_no_validation_passthrough_witness :
    (("zz".data) ∉ SUPPORTED_MODELS)
  ∧ (("zz".data) ≠ ([] : Str))
  ∧ model_or_default (some ("zz".data)) = ("zz".data)
  ∧ (build_commands [("q".data)] none (some ("zz".data))).getD 0 []
      = (("claude --model ".data) ++ ("zz".data))
        ++ ((" --dangerously-skip-permissions".data) ++ initial_tail none ("q".data)) := by
  have h := c7_no_validation_passthrough ("p".data) ("zz".data) none ("q".data) []
    (by decide) (by decide)
  exact ⟨by decide, by decide, h.1, h.2.1⟩

/-! ## JSON string round trip -/

theorem fromHex_toHex (n : Nat) (h : n < 16) : fromHexDigit (toHexDigit n) = some n := by
  revert h
  revert n
  decide

theorem hex_ne_quote (n : Nat) (h : n < 16) : toHexDigit n ≠ '\x27' := by
  revert h
  revert n
  decide

theorem parseBody_close (r : Str) : parseJsonStringBody ('\"' :: r) = some ([], r) := by
  rw [parseJsonStringBody.eq_def]
  simp

theorem parseBody_u (a b : Char) (rest : Str) :
    parseJsonStringBody ('\\' :: 'u' :: '0' :: '0' :: a :: b :: rest)
      = match fromHexDigit '0', fromHexDigit '0', fromHexDigit a, fromHexDigit b with
        | some d1, some d2, some d3, some d4 =>
          (parseJsonStringBody rest).map
            (fun p => (Char.ofNat (((d1 * 16 + d2) * 16 + d3) * 16 + d4) :: p.1, p.2))
        | _, _, _, _ => none := by
  rw [parseJsonStringBody.eq_def]
  simp

theorem parseBody_escape (s r : Str) :
    parseJsonStringBody (jsonEscape s ++ '\"' :: r) = some (s, r) := by
  induction s with
  | nil => simpa [jsonEscape] using parseBody_close r
  | cons c cs ih =>
    by_cases h1 : c = '\"'
    · subst h1
      simp [jsonEscape, jsonEscChar, parseJsonStringBody, simpleEscape, ih]
    · by_cases h2 : c = '\\'
      · subst h2
        simp [jsonEscape, jsonEscChar, parseJsonStringBody, simpleEscape, ih]
      · by_cases h3 : c = '\n'
        · subst h3
          simp [jsonEscChar.eq_def, jsonEscape, parseJsonStringBody, simpleEscape, ih]
        · by_cases h4 : c = '\r'
          · subst h4
            simp [jsonEscChar.eq_def, jsonEscape, parseJsonStringBody, simpleEscape, ih]
          · by_cases h5 : c = '\t'
            · subst h5
              simp [jsonEscChar.eq_def, jsonEscape, parseJsonStringBody, simpleEscape, ih]
            · by_cases h6 : c = '\x08'
              · subst h6
                simp [jsonEscChar.eq_def, jsonEscape, parseJsonStringBody, simpleEscape, ih]
              · by_cases h7 : c = '\x0c'
                · subst h7
                  simp [jsonEscChar.eq_def, jsonEscape, parseJsonStringBody, simpleEscape, ih]
                · by_cases hlt : c.toNat < 32
                  · have hesc : jsonEscChar c
                        = ['\\', 'u', '0', '0', toHexDigit (c.toNat / 16),
                           toHexDigit (c.toNat % 16)] := by
                      simp [jsonEscChar, h1, h2, h3, h4, h5, h6, h7, hlt]
                    have h00 : fromHexDigit '0' = some 0 := by decide
                    have hq1 : fromHexDigit (toHexDigit (c.toNat / 16)) = some (c.toNat / 16) :=
                      fromHex_toHex _ (by omega)
                    have hq2 : fromHexDigit (toHexDigit (c.toNat % 16)) = some (c.toNat % 16) :=
                      fromHex_toHex _ (by omega)
                    have harith : ((0 * 16 + 0) * 16 + c.toNat / 16) * 16 + c.toNat % 16
                        = c.toNat := by omega
                    have hshape : jsonEscape (c :: cs) ++ '\"' :: r
                        = '\\' :: 'u' :: '0' :: '0' :: toHexDigit (c.toNat / 16)
                            :: toHexDigit (c.toNat % 16) :: (jsonEscape cs ++ '\"' :: r) := by
                      simp [jsonEscape, hesc]
                    rw [hshape, parseBody_u, h00, hq1, hq2]
                    simp [ih, harith, Char.ofNat_toNat]
                    have harith2 : c.toNat / 16 * 16 + c.toNat % 16 = c.toNat := by omega
                    rw [harith2, Char.ofNat_toNat]
                  · have hesc : jsonEscChar c = [c] := by
                      simp [jsonEscChar, h1, h2, h3, h4, h5, h6, h7, hlt]
                    have hshape : jsonEscape (c :: cs) ++ '\"' :: r
                        = c :: (jsonEscape cs ++ '\"' :: r) := by
                      simp [jsonEscape, hesc]
                    rw [hshape, parseJsonStringBody.eq_def]
                    simp [h1, h2, ih]

theorem parseJsonString_lit (s r : Str) :
    parseJsonString (jsonStringLit s ++ r) = some (s, r) := by
  have hsh : jsonStringLit s ++ r = '\"' :: (jsonEscape s ++ ('\"' :: r)) := by
    simp [jsonStringLit, List.append_assoc]
  rw [hsh]
  exact parseBody_escape s r

theorem dropLit_self_append (p s : Str) : dropLit p (p ++ s) = some s := by
  induction p with
  | nil => rfl
  | cons c cs ih => simp [dropLit, ih]

/-! ## Single-quote freedom of the settings payload -/

theorem jsonEscChar_no_quote (c : Char) (hc : c ≠ '\x27') : '\x27' ∉ jsonEscChar c := by
  by_cases h1 : c = '\"'
  · subst h1; decide
  · by_cases h2 : c = '\\'
    · subst h2; decide
    · by_cases h3 : c = '\n'
      · subst h3; decide
      · by_cases h4 : c = '\r'
        · subst h4; decide
        · by_cases h5 : c = '\t'
          · subst h5; decide
          · by_cases h6 : c = '\x08'
            · subst h6; decide
            · by_cases h7 : c = '\x0c'
              · subst h7; decide
              · by_cases hlt : c.toNat < 32
                · intro hmem
                  simp [jsonEscChar, h1, h2, h3, h4, h5, h6, h7, hlt] at hmem
                  rcases hmem with h | h
                  · exact hex_ne_quote _ (by omega) h.symm
                  · exact hex_ne_quote _ (by omega) h.symm
                · intro hmem
                  simp [jsonEscChar, h1, h2, h3, h4, h5, h6, h7, hlt] at hmem
                  exact hc hmem.symm

theorem jsonEscape_no_quote (s : Str) (h : '\x27' ∉ s) : '\x27' ∉ jsonEscape s := by
  induction s with
  | nil => simp [jsonEscape]
  | cons c cs ih =>
    intro hmem
    rcases List.mem_append.mp hmem with hm1 | hm2
    · exact jsonEscChar_no_quote c (fun he => h (he ▸ List.mem_cons_self c cs)) hm1
    · exact ih (fun hm => h (List.mem_cons_of_mem c hm)) hm2

theorem settings_json_no_quote (proxy_url : Str) (h : '\x27' ∉ proxy_url) :
    '\x27' ∉ settings_json proxy_url := by
  have harr : '\x27' ∉ jsonArrayLit (ALLOWED_PERMISSIONS.map jsonStringLit) := by decide
  have hp1 : '\x27' ∉ (("\x7b\"env\": \x7b\"ANTHROPIC_BASE_URL\": ".data) : Str) := by decide
  have hp2 : '\x27' ∉ (("\x7d, \"permissions\": \x7b\"allow\": ".data) : Str) := by decide
  have hp3 : '\x27' ∉ (("\x7d\x7d".data) : Str) := by decide
  have hlit : '\x27' ∉ jsonStringLit proxy_url := by
    intro hm
    rcases List.mem_cons.mp hm with he | hm2
    · exact absurd he (by decide)
    · rcases List.mem_append.mp hm2 with h3 | h4
      · exact jsonEscape_no_quote proxy_url h h3
      · exact absurd h4 (by decide)
  intro hmem
  simp only [settings_json, List.mem_append] at hmem
  rcases hmem with ((((hm | hm) | hm) | hm) | hm)
  · exact hp1 hm
  · exact hlit hm
  · exact hp2 hm
  · exact harr hm
  · exact hp3 hm

theorem breakAtQuote_append (a r : Str) (h : '\x27' ∉ a) :
    breakAtQuote (a ++ '\x27' :: r) = some (a, r) := by
  induction a with
  | nil => simp [breakAtQuote]
  | cons c cs ih =>
    have hc : ¬c = '\x27' := fun he => h (he ▸ List.mem_cons_self c cs)
    have hcs : '\x27' ∉ cs := fun hm => h (List.mem_cons_of_mem c hm)
    simp [breakAtQuote, hc, ih hcs]

/-! ## Setup script: extraction and decoding -/

theorem parseSettingsTail_concrete :
    parseSettingsTail (("\x7d, \"permissions\": \x7b\"allow\": ".data)
        ++ (jsonArrayLit (ALLOWED_PERMISSIONS.map jsonStringLit) ++ ("\x7d\x7d".data)))
      = some ALLOWED_PERMISSIONS := by decide

theorem parseSettings_step (proxy rest : Str) (perms : List Str)
    (htail : parseSettingsTail rest = some perms) :
    parseSettings (("\x7b\"env\": \x7b\"ANTHROPIC_BASE_URL\": ".data)
        ++ (jsonStringLit proxy ++ rest)) = some (proxy, perms) := by
  simp only [parseSettings, dropLit_self_append, parseJsonString_lit, htail]

theorem parseSettings_settings_json (proxy_url : Str) :
    parseSettings (settings_json proxy_url) = some (proxy_url, ALLOWED_PERMISSIONS) := by
  have hassoc : settings_json proxy_url
      = ("\x7b\"env\": \x7b\"ANTHROPIC_BASE_URL\": ".data)
        ++ (jsonStringLit proxy_url
            ++ (("\x7d, \"permissions\": \x7b\"allow\": ".data)
                ++ (jsonArrayLit (ALLOWED_PERMISSIONS.map jsonStringLit)
                    ++ ("\x7d\x7d".data)))) := by
    simp [settings_json, List.append_assoc]
  rw [hassoc]
  exact parseSettings_step proxy_url _ _ parseSettingsTail_concrete

theorem extract_setup_script (proxy_url : Str) (model : Option Str) (h : '\x27' ∉ proxy_url) :
    extractSingleQuoted (get_setup_script proxy_url model) = some (settings_json proxy_url) := by
  have e1 : (("mkdir -p ~/.claude && echo \x27".data) : Str)
      = ("mkdir -p ~/.claude && echo ".data) ++ ['\x27'] := by rfl
  have e2 : (("\x27 > ~/.claude/settings.json".data) : Str)
      = '\x27' :: (" > ~/.claude/settings.json".data) := by rfl
  have hscript : get_setup_script proxy_url model
      = ("mkdir -p ~/.claude && echo ".data)
        ++ ('\x27' :: (settings_json proxy_url
            ++ ('\x27' :: (" > ~/.claude/settings.json".data)))) := by
    simp [get_setup_script, e1, e2, List.append_assoc]
  have b1 : breakAtQuote (("mkdir -p ~/.claude && echo ".data)
        ++ '\x27' :: (settings_json proxy_url
            ++ ('\x27' :: (" > ~/.claude/settings.json".data))))
      = some (("mkdir -p ~/.claude && echo ".data),
          settings_json proxy_url ++ ('\x27' :: (" > ~/.claude/settings.json".data))) :=
    breakAtQuote_append _ _ (by decide)
  have b2 : breakAtQuote (settings_json proxy_url
        ++ ('\x27' :: (" > ~/.claude/settings.json".data)))
      = some (settings_json proxy_url, (" > ~/.claude/settings.json".data)) :=
    breakAtQuote_append _ _ (settings_json_no_quote proxy_url h)
  simp only [extractSingleQuoted, hscript, b1, b2]

/-- C6: for every proxy endpoint without a single-quote character,
`get_setup_script` renders
`mkdir -p ~/.claude && echo '<payload>' > ~/.claude/settings.json` —
directory creation first, then a single write of the configuration file;
the payload extracted from its single-quoted shell string is exactly the
serialized settings, and decoding that payload yields precisely the given
routing endpoint under `env.ANTHROPIC_BASE_URL` together with the fixed
`ALLOWED_PERMISSIONS` allow-list under `permissions.allow`. -/
theorem c6_setup_script_decodes (proxy_url : Str) (model : Option Str)
    (h : '\x27' ∉ proxy_url) :
    get_setup_script proxy_url model
      = ("mkdir -p ~/.claude && echo \x27".data) ++ settings_json proxy_url
        ++ ("\x27 > ~/.claude/settings.json".data)
  ∧ extractSingleQuoted (get_setup_script proxy_url model) = some (settings_json proxy_url)
  ∧ parseSettings (settings_json proxy_url) = some (proxy_url, ALLOWED_PERMISSIONS) :=
  ⟨rfl, extract_setup_script proxy_url model h, parseSettings_settings_json proxy_url⟩

theorem c6_setup_script_decodes_witness :
    ('\x27' ∉ (("http://host.docker.internal:4000".data) : Str))
  ∧ extractSingleQuoted (get_setup_script ("http://host.docker.internal:4000".data) none)
      = some (settings_json ("http://host.docker.internal:4000".data))
  ∧ parseSettings (settings_json ("http://host.docker.internal:4000".data))
      = some (("http://host.docker.internal:4000".data), ALLOWED_PERMISSIONS) := by
  have hq : '\x27' ∉ (("http://host.docker.internal:4000".data) : Str) := by decide
  have h := c6_setup_script_decodes ("http://host.docker.internal:4000".data) none hq
  exact ⟨hq, h.2.1, h.2.2⟩

end Scaffold
